import Mathlib

/-!
Verification of the ClickHouse HTTP client query pipeline.

Shallow embedding of `src/query.rs` (the `Query` orchestrator: `execute`,
`fetch`, `fetch_one`, `fetch_optional`, `fetch_all`, `do_execute`) together
with the collaborators it drives. `SqlBuilder`, the row cursor and the
response/error translation live in repository files that are not available
here; where a claim depends on them they are modelled from the specification
document, and each such definition says so in its doc comment.
-/

namespace ClickHouse

/-- Error type covering the failure variants the verified paths can produce:
`RowNotFound` (fetch_one over an empty cursor), `BadResponse` (non-success
server status with its textual reason), binding errors from rendering
(missing / unused arguments), invalid raw identifiers, materialization task
join failures, and decode failures surfaced by the cursor. -/
inductive Err where
  | rowNotFound : Err
  | badResponse (reason : String) : Err
  | bindingMissing : Err
  | bindingUnused : Err
  | invalidIdentifier (s : String) : Err
  | unexpandedFields : Err
  | joinError : Err
  | decodeError (msg : String) : Err
deriving DecidableEq, Repr

/-- Source constant `MAX_QUERY_LEN_TO_USE_GET = 8192` (src/query.rs line 15). -/
def MAX_QUERY_LEN_TO_USE_GET : Nat := 8192

/-- Source constant `BUFFER_SIZE = 20000` (src/query.rs line 16), the
`fetch_all` chunk threshold. -/
def BUFFER_SIZE : Nat := 20000

/-- HTTP method chosen by `do_execute`. -/
inductive HttpMethod where
  | get : HttpMethod
  | post : HttpMethod
deriving DecidableEq, Repr

/-- Client configuration as read by `do_execute` (src/query.rs lines
141-187): the parsed base URL is abstracted to the query pairs it already
carries (`pairs.clear()` is the only thing `do_execute` does with them),
plus `database`, compression choice, extra options and credentials. -/
structure ClientConfig where
  baseQueryPairs : List (String × String)
  database : Option String
  compressionIsLz4 : Bool
  options : List (String × String)
  user : Option String
  password : Option String
deriving DecidableEq, Repr

/-- The outgoing request assembled by `do_execute`: method, the query-string
pairs appended via `url.query_pairs_mut()`, the body (empty for GET), the
content-length value and the extra headers. -/
structure RequestModel where
  method : HttpMethod
  queryPairs : List (String × String)
  body : String
  contentLength : Nat
  headers : List (String × String)
deriving DecidableEq, Repr

/-- Model of `pairs.clear()` (src/query.rs line 144): whatever query pairs the
configured base URL carried are discarded before assembly appends its own. -/
def clearPairs (ps : List (String × String)) : List (String × String) :=
  match ps with
  | _ => []

/-- The headers set by `do_execute` (src/query.rs lines 175-187):
content-length always (the string "0" when the body is empty), then the
credential headers when configured. -/
def requestHeaders (contentLength : Nat) (user password : Option String) :
    List (String × String) :=
  [("content-length", if contentLength = 0 then "0" else toString contentLength)]
    ++ (match user with
        | some u => [("X-ClickHouse-User", u)]
        | none => [])
    ++ (match password with
        | some p => [("X-ClickHouse-Key", p)]
        | none => [])

/-- Request assembly from `do_execute` (src/query.rs lines 141-191), after
the SQL text has been rendered. `query.len()` is the byte length of the
rendered text, so the model measures `String.utf8ByteSize`. Mirrors the
source: clear inherited pairs, append `database`, pick POST iff
`!read_only || query.len() > MAX_QUERY_LEN_TO_USE_GET`, attach
`readonly=1` on a read-only POST or `query` on a GET, then `compress=1`
and the extra options. -/
def assembleRequest (c : ClientConfig) (query : String) (read_only : Bool) :
    RequestModel :=
  let pairs0 := clearPairs c.baseQueryPairs
  let pairs1 := pairs0 ++ (match c.database with
    | some d => [("database", d)]
    | none => [])
  let use_post := !read_only || query.utf8ByteSize > MAX_QUERY_LEN_TO_USE_GET
  let method := if use_post then HttpMethod.post else HttpMethod.get
  let pairs2 := if use_post then
      pairs1 ++ (if read_only then [("readonly", "1")] else [])
    else
      pairs1 ++ [("query", query)]
  let body := if use_post then query else ""
  let contentLength := if use_post then query.utf8ByteSize else 0
  let pairs3 := pairs2 ++ (if c.compressionIsLz4 then [("compress", "1")] else [])
  let pairs4 := pairs3 ++ c.options
  { method := method
    queryPairs := pairs4
    body := body
    contentLength := contentLength
    headers := requestHeaders contentLength c.user c.password }

/-- Modelled from the spec: `SqlBuilder` (the repository's `sql` module) is
not under `src/`; only its callers in `src/query.rs` are. Per the spec's
template syntax, a template is a sequence of literal text chunks, positional
`?` placeholders (each consuming one bound argument left-to-right), and the
reserved `?fields` placeholder. -/
inductive SqlPart where
  | chunk (s : String) : SqlPart
  | arg : SqlPart
  | fields : SqlPart
deriving DecidableEq, Repr

/-- Modelled from the spec: a bound argument is one of a fixed set of
variants — an escaped literal (string/bytes, quote-delimited with
backslash-escaping), a numeric value rendered as canonical decimal text, or
a raw identifier (back-tick-quoted, syntax-validated, never escaped). -/
inductive BindArg where
  | str (s : String) : BindArg
  | num (n : Int) : BindArg
  | ident (s : String) : BindArg
deriving DecidableEq, Repr

/-- Modelled from the spec: string/byte values are quote-delimited with
backslash-escaping of quotes and backslashes. -/
def escapeChar (c : Char) : String :=
  if c = '\\' ∨ c = '\'' then String.mk ['\\', c] else String.mk [c]

/-- Modelled from the spec: the quote-delimited escaped rendering of a
string literal. -/
def escapeString (s : String) : String :=
  "'" ++ String.join (s.data.map escapeChar) ++ "'"

/-- Modelled from the spec: a raw-identifier argument fails if it contains
characters invalid in a dotted object name. -/
def validIdentChar (c : Char) : Bool :=
  c.isAlphanum || c = '_' || c = '.'

/-- Modelled from the spec: render one bound argument — escaped literal,
canonical decimal, or validated back-tick-quoted identifier. -/
def renderArg : BindArg → Except Err String
  | .str s => .ok (escapeString s)
  | .num n => .ok (toString n)
  | .ident s =>
      if s.data.all validIdentChar then .ok ("`" ++ s ++ "`")
      else .error (.invalidIdentifier s)

/-- Modelled from the spec: `SqlBuilder::finish` walks the template
left-to-right, substituting each positional placeholder with its
corresponding rendered argument; it fails with a binding error when no
argument is left or extra arguments are unused, with an identifier error on
an invalid raw identifier, and a `?fields` placeholder must have been
expanded before rendering. -/
def finishParts : List SqlPart → List BindArg → Except Err String
  | [], [] => .ok ""
  | [], _ :: _ => .error .bindingUnused
  | .chunk s :: rest, args => (finishParts rest args).map (fun t => s ++ t)
  | .arg :: _, [] => .error .bindingMissing
  | .arg :: rest, a :: args => do
      let r ← renderArg a
      let t ← finishParts rest args
      .ok (r ++ t)
  | .fields :: _, _ => .error .unexpandedFields

/-- Modelled from the spec: `SqlBuilder::bind_fields` expands the reserved
`?fields` placeholder into the comma-joined column list of the row layout,
in declared order — exactly once (the first occurrence). -/
def bindFields (fields : List String) : List SqlPart → List SqlPart
  | [] => []
  | .fields :: rest => .chunk (String.intercalate ", " fields) :: rest
  | p :: rest => p :: bindFields fields rest

/-- Number of positional `?` placeholders in a template. -/
def countPlaceholders : List SqlPart → Nat
  | [] => 0
  | .arg :: rest => countPlaceholders rest + 1
  | _ :: rest => countPlaceholders rest

/-- Model of `Query::do_execute` (src/query.rs lines 138-195): render the SQL via
`self.sql.finish()?` first — any rendering failure returns before the URL,
query pairs, headers or request are built — then assemble the request. -/
def doExecuteM (c : ClientConfig) (parts : List SqlPart) (args : List BindArg)
    (read_only : Bool) : Except Err RequestModel :=
  (finishParts parts args).map (fun q => assembleRequest c q read_only)

/-- Model of `Query::execute` (src/query.rs lines 44-46): `self.do_execute(false)`. -/
def executeM (c : ClientConfig) (parts : List SqlPart) (args : List BindArg) :
    Except Err RequestModel :=
  doExecuteM c parts args false

/-- Model of `Query::fetch` (src/query.rs lines 69-75): `bind_fields::<T>()` expands
`?fields` into T's column list, then `append(" FORMAT RowBinary")` adds the
format directive as a trailing chunk, then `do_execute(true)` issues the
request read-only-eligible. -/
def fetchM (c : ClientConfig) (fields : List String) (parts : List SqlPart)
    (args : List BindArg) : Except Err RequestModel :=
  doExecuteM c (bindFields fields parts ++ [SqlPart.chunk " FORMAT RowBinary"]) args true

/-- The row cursor as seen by `fetch_one` / `fetch_all` (its decoder lives
outside `src/`): a stream of events, each one either a decoded row or an
error surfaced by `cursor.next().await`; the list's end is clean
end-of-stream (`Ok(None)`). -/
abbrev CursorEvents (T : Type) := List (Except Err T)

/-- One `cursor.next().await` step: the yielded `Result<Option<T>>` and the
remaining stream. -/
def cursorNext {T : Type} : CursorEvents T → Except Err (Option T) × CursorEvents T
  | [] => (.ok none, [])
  | .ok r :: rest => (.ok (some r), rest)
  | .error e :: rest => (.error e, rest)

/-- Model of `Query::fetch_one` (src/query.rs lines 80-89) applied to the cursor's
stream: one `next()` call, then `Ok(Some(row)) => Ok(row)`,
`Ok(None) => Err(Error::RowNotFound)`, `Err(err) => Err(err)`. -/
def fetchOneOfEvents {T : Type} (events : CursorEvents T) : Except Err T :=
  match (cursorNext events).1 with
  | .ok (some row) => .ok row
  | .ok none => .error .rowNotFound
  | .error e => .error e

/-- Model of `Query::fetch_optional` (src/query.rs lines 94-99) applied to the
cursor's stream: exactly one `next()` call, returned as is. -/
def fetchOptionalOfEvents {T : Type} (events : CursorEvents T) : Except Err (Option T) :=
  (cursorNext events).1

/-- The loop of `Query::fetch_all` (src/query.rs lines 114-135),
parameterised by the chunk handoff `join` (modelling
`task::spawn(async move { chunk }).await.map_err(Error::from)`): push each
row into `buffer`; when `buffer.len() >= BUFFER_SIZE`, `split_off(0)` the
whole buffer as a chunk, join the handoff and extend `result`; a cursor
error propagates via `?`; at end-of-stream extend `result` with the
remaining partial buffer. -/
def fetchAllGo {T : Type} (join : List T → Except Err (List T)) :
    CursorEvents T → List T → List T → Except Err (List T)
  | [], buffer, result => .ok (result ++ buffer)
  | .error e :: _, _, _ => .error e
  | .ok row :: rest, buffer, result =>
      let buffer1 := buffer ++ [row]
      if BUFFER_SIZE ≤ buffer1.length then
        match join buffer1 with
        | .error e => .error e
        | .ok chunk => fetchAllGo join rest [] (result ++ chunk)
      else
        fetchAllGo join rest buffer1 result

/-- Model of `Query::fetch_all` over the cursor's stream, with the faithful handoff:
the spawned task simply returns the moved chunk, so a successful join yields
the chunk unchanged. -/
def fetchAllOfEvents {T : Type} (events : CursorEvents T) : Except Err (List T) :=
  fetchAllGo Except.ok events [] []

/-- Written from the spec's words for the refinement claim: "a
straightforward single-threaded drain of the cursor into one collection" —
no buffering, no handoff; rows in arrival order until clean end-of-stream,
the first error aborts. -/
def drainAll {T : Type} : CursorEvents T → Except Err (List T)
  | [] => .ok []
  | .error e :: _ => .error e
  | .ok r :: rest => (drainAll rest).map (fun rows => r :: rows)

/-- Modelled from the spec: an HTTP status with its textual reason phrase
(`Response` and the mock `failure` handler are not under `src/`). -/
structure HttpStatus where
  code : Nat
  reason : String
deriving DecidableEq, Repr

/-- Status `test::status::FORBIDDEN`, whose reason phrase is "Forbidden". -/
def FORBIDDEN : HttpStatus := { code := 403, reason := "Forbidden" }

/-- Modelled from the spec: what the server sent back — a success body
already decoded into the cursor's event stream, or a non-success status
with a textual reason and no body (the mock `failure` handler). -/
inductive ServerReply (T : Type) where
  | success (events : CursorEvents T) : ServerReply T
  | failure (status : HttpStatus) : ServerReply T

/-- Modelled from the spec: a transport-level failure response is detected
upstream of decoding and surfaced as an error carrying the server's textual
reason byte-exact (`Err(BadResponse("Forbidden"))` in examples/mock.rs line
112); a success body is decoded row by row. -/
def replyEvents {T : Type} : ServerReply T → CursorEvents T
  | .success events => events
  | .failure status => [.error (.badResponse status.reason)]

/-- Running `fetch_all` over a server reply: the cursor surfaces a non-success
status as its first error, otherwise the body's rows are drained. -/
def fetchAllOfReply {T : Type} (reply : ServerReply T) : Except Err (List T) :=
  fetchAllOfEvents (replyEvents reply)

/-- Running `fetch` followed by pulling one row, over a server reply. -/
def fetchOneOfReply {T : Type} (reply : ServerReply T) : Except Err T :=
  fetchOneOfEvents (replyEvents reply)

/-- Pipeline of `Query::fetch_one` end to end: render + assemble via `fetch`, then pull
one row from the cursor the responder produces for the request. Any render
error propagates before a request exists. -/
def fetchOnePipeline {T : Type} (c : ClientConfig) (fields : List String)
    (parts : List SqlPart) (args : List BindArg)
    (respond : RequestModel → CursorEvents T) : Except Err T :=
  match fetchM c fields parts args with
  | .error e => .error e
  | .ok req => fetchOneOfEvents (respond req)

/-- Pipeline of `Query::fetch_optional` end to end. -/
def fetchOptionalPipeline {T : Type} (c : ClientConfig) (fields : List String)
    (parts : List SqlPart) (args : List BindArg)
    (respond : RequestModel → CursorEvents T) : Except Err (Option T) :=
  match fetchM c fields parts args with
  | .error e => .error e
  | .ok req => fetchOptionalOfEvents (respond req)

/-- Pipeline of `Query::fetch_all` end to end. -/
def fetchAllPipeline {T : Type} (c : ClientConfig) (fields : List String)
    (parts : List SqlPart) (args : List BindArg)
    (respond : RequestModel → CursorEvents T) : Except Err (List T) :=
  match fetchM c fields parts args with
  | .error e => .error e
  | .ok req => fetchAllOfEvents (respond req)

/-! ## Helper lemmas -/

/-- The `fetch_all` loop with the faithful (always succeeding, identity)
chunk handoff computes the single-threaded drain, prefixed by the already
accumulated result and buffer. -/
theorem fetchAllGo_ok_eq_drain {T : Type} (events : CursorEvents T) :
    ∀ buffer result, fetchAllGo Except.ok events buffer result
      = (drainAll events).map (fun rows => result ++ (buffer ++ rows)) := by
  induction events with
  | nil =>
      intro buffer result
      simp [fetchAllGo, drainAll, Except.map]
  | cons ev rest ih =>
      intro buffer result
      cases ev with
      | error e => simp [fetchAllGo, drainAll, Except.map]
      | ok r =>
          simp only [fetchAllGo]
          by_cases h : BUFFER_SIZE ≤ (buffer ++ [r]).length
          · rw [if_pos h, ih]
            cases hd : drainAll rest with
            | error e => simp [drainAll, hd, Except.map]
            | ok rows => simp [drainAll, hd, Except.map]
          · rw [if_neg h, ih]
            cases hd : drainAll rest with
            | error e => simp [drainAll, hd, Except.map]
            | ok rows => simp [drainAll, hd, Except.map]

/-- Draining a stream of pure row events yields exactly those rows. -/
theorem drainAll_map_ok {T : Type} (rows : List T) :
    drainAll (rows.map Except.ok) = Except.ok rows := by
  induction rows with
  | nil => rfl
  | cons r rest ih => simp [drainAll, ih, Except.map]

/-- Draining a stream that errors after a prefix of rows yields that error. -/
theorem drainAll_error {T : Type} (pre : List T) (e : Err) (rest : CursorEvents T) :
    drainAll (pre.map Except.ok ++ Except.error e :: rest) = Except.error e := by
  induction pre with
  | nil => rfl
  | cons r more ih => simp [drainAll, ih, Except.map]

/-- The `database` query pair when a database is configured. -/
def dbPairs : Option String → List (String × String)
  | some d => [("database", d)]
  | none => []

/-- The `compress=1` query pair when lz4 compression is negotiated. -/
def compressPairs (lz4 : Bool) : List (String × String) :=
  if lz4 then [("compress", "1")] else []

/-- Characterization of `do_execute`'s request assembly: GET (query in the
URL, empty body) exactly when the call is read-only and the rendered text
is at most `MAX_QUERY_LEN_TO_USE_GET` bytes; otherwise POST with the text
as body, a read-only POST carrying the `readonly=1` hint. -/
theorem assembleRequest_spec (c : ClientConfig) (q : String) (ro : Bool) :
    assembleRequest c q ro =
      if ro = true ∧ q.utf8ByteSize ≤ MAX_QUERY_LEN_TO_USE_GET then
        { method := HttpMethod.get
          queryPairs := dbPairs c.database ++ [("query", q)]
            ++ compressPairs c.compressionIsLz4 ++ c.options
          body := ""
          contentLength := 0
          headers := requestHeaders 0 c.user c.password }
      else
        { method := HttpMethod.post
          queryPairs := dbPairs c.database ++ (if ro then [("readonly", "1")] else [])
            ++ compressPairs c.compressionIsLz4 ++ c.options
          body := q
          contentLength := q.utf8ByteSize
          headers := requestHeaders q.utf8ByteSize c.user c.password } := by
  by_cases hro : ro
  · by_cases hq : q.utf8ByteSize ≤ MAX_QUERY_LEN_TO_USE_GET
    · have hnl : ¬ MAX_QUERY_LEN_TO_USE_GET < q.utf8ByteSize := Nat.not_lt.mpr hq
      simp [assembleRequest, clearPairs, dbPairs, compressPairs, hro, hq, hnl]
    · have hl : MAX_QUERY_LEN_TO_USE_GET < q.utf8ByteSize := Nat.lt_of_not_le hq
      simp [assembleRequest, clearPairs, dbPairs, compressPairs, hro, hq, hl]
  · have hro2 : ro = false := Bool.not_eq_true ro |>.mp hro
    simp [assembleRequest, clearPairs, dbPairs, compressPairs, hro2]

/-- Byte length of a string made of `n` copies of one character. -/
theorem utf8ByteSize_replicate (n : Nat) (c : Char) :
    (String.mk (List.replicate n c)).utf8ByteSize = n * c.utf8Size := by
  rw [String.utf8ByteSize_mk]
  induction n with
  | zero => simp [String.utf8Len, String.utf8ByteSize.go]
  | succ m ih =>
      rw [List.replicate_succ]
      rw [show String.utf8Len (c :: List.replicate m c)
            = String.utf8Len (List.replicate m c) + c.utf8Size from rfl, ih]
      ring

/-- Mapping over a success yields the mapped success (definitional). -/
theorem exceptMap_ok {ε α β : Type} (f : α → β) (a : α) :
    Except.map f (Except.ok a : Except ε α) = Except.ok (f a) := rfl

/-- Mapping over an error passes it through unchanged (definitional). -/
theorem exceptMap_error {ε α β : Type} (f : α → β) (e : ε) :
    Except.map f (Except.error e : Except ε α) = Except.error e := rfl

/-- Monadic bind on a success applies the continuation (definitional). -/
theorem exceptBind_ok {ε α β : Type} (a : α) (f : α → Except ε β) :
    ((Except.ok a : Except ε α) >>= f) = f a := rfl

/-- Monadic bind on an error short-circuits (definitional). -/
theorem exceptBind_error {ε α β : Type} (e : ε) (f : α → Except ε β) :
    ((Except.error e : Except ε α) >>= f) = Except.error e := rfl

/-- Rendering succeeds only when the bound argument count equals the
positional placeholder count. -/
theorem finishParts_ok_count :
    ∀ (parts : List SqlPart) (args : List BindArg) (s : String),
      finishParts parts args = Except.ok s → countPlaceholders parts = args.length := by
  intro parts
  induction parts with
  | nil =>
      intro args s h
      cases args with
      | nil => rfl
      | cons a as => simp [finishParts] at h
  | cons p rest ih =>
      intro args s h
      cases p with
      | chunk t =>
          cases hr : finishParts rest args with
          | error e => simp [finishParts, hr, exceptMap_error] at h
          | ok u => simpa [countPlaceholders] using ih args u hr
      | arg =>
          cases args with
          | nil => simp [finishParts] at h
          | cons a as =>
              cases ha : renderArg a with
              | error e => simp [finishParts, ha, exceptBind_error] at h
              | ok r =>
                  cases hr : finishParts rest as with
                  | error e =>
                      simp [finishParts, ha, hr, exceptBind_ok, exceptBind_error] at h
                  | ok u => simpa [countPlaceholders] using ih as u hr
      | fields => simp [finishParts] at h

/-- Argument rendering can only fail on an invalid raw identifier. -/
theorem renderArg_error_kind (a : BindArg) (e : Err) :
    renderArg a = Except.error e → ∃ s, e = Err.invalidIdentifier s := by
  intro h
  cases a with
  | str s => exact absurd h (by simp [renderArg])
  | num n => exact absurd h (by simp [renderArg])
  | ident s =>
      by_cases hv : s.data.all validIdentChar
      · rw [renderArg, if_pos hv] at h
        exact absurd h (by simp)
      · rw [renderArg, if_neg hv] at h
        cases h
        exact ⟨s, rfl⟩

/-- On a template without the reserved `?fields` placeholder, a rendering
failure is a binding error or an identifier error. -/
theorem finishParts_error_kind :
    ∀ (parts : List SqlPart) (args : List BindArg) (e : Err),
      SqlPart.fields ∉ parts → finishParts parts args = Except.error e
      → e = Err.bindingMissing ∨ e = Err.bindingUnused
        ∨ ∃ s, e = Err.invalidIdentifier s := by
  intro parts
  induction parts with
  | nil =>
      intro args e _ h
      cases args with
      | nil => simp [finishParts] at h
      | cons a as =>
          simp [finishParts] at h
          subst h
          simp
  | cons p rest ih =>
      intro args e hmem h
      have hmem2 : SqlPart.fields ∉ rest := fun hx => hmem (List.mem_cons_of_mem p hx)
      cases p with
      | chunk t =>
          cases hr : finishParts rest args with
          | error e2 =>
              simp [finishParts, hr, exceptMap_error] at h
              subst h
              exact ih args _ hmem2 hr
          | ok u => simp [finishParts, hr, exceptMap_ok] at h
      | arg =>
          cases args with
          | nil =>
              simp [finishParts] at h
              subst h
              simp
          | cons a as =>
              cases ha : renderArg a with
              | error e2 =>
                  simp [finishParts, ha, exceptBind_error] at h
                  subst h
                  exact Or.inr (Or.inr (renderArg_error_kind a _ ha))
              | ok r =>
                  cases hr : finishParts rest as with
                  | error e2 =>
                      simp [finishParts, ha, hr, exceptBind_ok, exceptBind_error] at h
                      subst h
                      exact ih as _ hmem2 hr
                  | ok u =>
                      simp [finishParts, ha, hr, exceptBind_ok] at h
      | fields => exact absurd (List.mem_cons_self SqlPart.fields rest) hmem

/-- Expanding `?fields` on a template that does not contain it changes
nothing. -/
theorem bindFields_not_mem (fields : List String) :
    ∀ parts : List SqlPart, SqlPart.fields ∉ parts → bindFields fields parts = parts := by
  intro parts
  induction parts with
  | nil => intro _; rfl
  | cons p rest ih =>
      intro h
      have h2 : SqlPart.fields ∉ rest := fun hx => h (List.mem_cons_of_mem p hx)
      cases p with
      | chunk t => simp [bindFields, ih h2]
      | arg => simp [bindFields, ih h2]
      | fields => exact absurd (List.mem_cons_self SqlPart.fields rest) h

/-- Field expansion rewrites the first `?fields` placeholder into the
comma-joined column list and leaves everything around it unchanged. -/
theorem bindFields_expand (fields : List String) :
    ∀ pre post : List SqlPart, SqlPart.fields ∉ pre
      → bindFields fields (pre ++ SqlPart.fields :: post)
        = pre ++ SqlPart.chunk (String.intercalate ", " fields) :: post := by
  intro pre
  induction pre with
  | nil => intro post _; rfl
  | cons p rest ih =>
      intro post h
      have h2 : SqlPart.fields ∉ rest := fun hx => h (List.mem_cons_of_mem p hx)
      cases p with
      | chunk t => simp [bindFields, ih post h2]
      | arg => simp [bindFields, ih post h2]
      | fields => exact absurd (List.mem_cons_self SqlPart.fields rest) h

/-- Rendering a template with a trailing literal chunk appends that chunk's
text to the rendered query — the appended format directive never interacts
with placeholder substitution. -/
theorem finishParts_append_chunk :
    ∀ (parts : List SqlPart) (args : List BindArg) (s : String),
      finishParts (parts ++ [SqlPart.chunk s]) args
        = (finishParts parts args).map (fun t => t ++ s) := by
  intro parts
  induction parts with
  | nil =>
      intro args s
      cases args with
      | nil => simp [finishParts, exceptMap_ok]
      | cons a as => simp [finishParts, exceptMap_error]
  | cons p rest ih =>
      intro args s
      cases p with
      | chunk t =>
          cases hr : finishParts rest args with
          | error e => simp [finishParts, ih, hr, exceptMap_error]
          | ok u => simp [finishParts, ih, hr, exceptMap_ok, String.append_assoc]
      | arg =>
          cases args with
          | nil => simp [finishParts, exceptMap_error]
          | cons a as =>
              cases ha : renderArg a with
              | error e =>
                  simp [finishParts, ha, exceptBind_error, exceptMap_error]
              | ok r =>
                  cases hr : finishParts rest as with
                  | error e =>
                      simp [finishParts, ha, ih, hr, exceptBind_ok, exceptBind_error,
                        exceptMap_error]
                  | ok u =>
                      simp [finishParts, ha, ih, hr, exceptBind_ok, exceptMap_ok,
                        String.append_assoc]
      | fields => simp [finishParts, exceptMap_error]

/-- Rendering succeeds only if every bound argument renders: a successful
`finish` leaves no argument whose own rendering fails. -/
theorem finishParts_ok_args :
    ∀ (parts : List SqlPart) (args : List BindArg) (out : String),
      finishParts parts args = Except.ok out
      → ∀ a ∈ args, ∃ r, renderArg a = Except.ok r := by
  intro parts
  induction parts with
  | nil =>
      intro args out h a ha
      cases args with
      | nil => simp at ha
      | cons b bs => simp [finishParts] at h
  | cons p rest ih =>
      intro args out h a ha
      cases p with
      | chunk t =>
          cases hr : finishParts rest args with
          | error e => simp [finishParts, hr, exceptMap_error] at h
          | ok u => exact ih args u hr a ha
      | arg =>
          cases args with
          | nil => simp at ha
          | cons b bs =>
              cases hb : renderArg b with
              | error e => simp [finishParts, hb, exceptBind_error] at h
              | ok r =>
                  cases hrest : finishParts rest bs with
                  | error e =>
                      simp [finishParts, hb, hrest, exceptBind_ok, exceptBind_error] at h
                  | ok u =>
                      cases ha with
                      | head => exact ⟨r, hb⟩
                      | tail _ hmem => exact ih bs u hrest a hmem
      | fields => simp [finishParts] at h

/-- When the argument count matches the placeholder count on a fields-free
template, the only possible rendering failure is an identifier error: the
binding errors require a count mismatch. -/
theorem finishParts_match_error :
    ∀ (parts : List SqlPart) (args : List BindArg) (e : Err),
      SqlPart.fields ∉ parts → countPlaceholders parts = args.length
      → finishParts parts args = Except.error e
      → ∃ s, e = Err.invalidIdentifier s := by
  intro parts
  induction parts with
  | nil =>
      intro args e _ hc h
      cases args with
      | nil => simp [finishParts] at h
      | cons a as => simp [countPlaceholders] at hc
  | cons p rest ih =>
      intro args e hmem hc h
      have hmem2 : SqlPart.fields ∉ rest := fun hx => hmem (List.mem_cons_of_mem p hx)
      cases p with
      | chunk t =>
          cases hr : finishParts rest args with
          | error e2 =>
              simp [finishParts, hr, exceptMap_error] at h
              subst h
              exact ih args _ hmem2 (by simpa [countPlaceholders] using hc) hr
          | ok u => simp [finishParts, hr, exceptMap_ok] at h
      | arg =>
          cases args with
          | nil => simp [countPlaceholders] at hc
          | cons a as =>
              cases ha : renderArg a with
              | error e2 =>
                  simp [finishParts, ha, exceptBind_error] at h
                  subst h
                  exact renderArg_error_kind a _ ha
              | ok r =>
                  cases hr : finishParts rest as with
                  | error e2 =>
                      simp [finishParts, ha, hr, exceptBind_ok, exceptBind_error] at h
                      subst h
                      exact ih as _ hmem2 (by simpa [countPlaceholders] using hc) hr
                  | ok u => simp [finishParts, ha, hr, exceptBind_ok] at h
      | fields => exact absurd (List.mem_cons_self SqlPart.fields rest) hmem

/-- Field expansion never changes the number of positional placeholders. -/
theorem countPlaceholders_bindFields (fields : List String) :
    ∀ parts : List SqlPart,
      countPlaceholders (bindFields fields parts) = countPlaceholders parts := by
  intro parts
  induction parts with
  | nil => rfl
  | cons p rest ih =>
      cases p with
      | chunk t => simp [bindFields, countPlaceholders, ih]
      | arg => simp [bindFields, countPlaceholders, ih]
      | fields => simp [bindFields, countPlaceholders]

/-- Appending a literal chunk never changes the number of positional
placeholders. -/
theorem countPlaceholders_append_chunk :
    ∀ (parts : List SqlPart) (s : String),
      countPlaceholders (parts ++ [SqlPart.chunk s]) = countPlaceholders parts := by
  intro parts s
  induction parts with
  | nil => rfl
  | cons p rest ih =>
      cases p with
      | chunk t => simp [countPlaceholders, ih]
      | arg => simp [countPlaceholders, ih]
      | fields => simp [countPlaceholders, ih]

/-! ## Claims -/

/-- C2: the request uses GET (query text in the URL, empty body) iff the
call is read-only and the rendered text is at most 8192 bytes; otherwise
POST with the text as body, a read-only POST carrying `readonly=1`; in
particular a read-only text of exactly 8192 bytes goes by GET and one of
8193 bytes by POST with the readonly hint. -/
theorem transport_method_selection :
    (∀ (c : ClientConfig) (q : String) (ro : Bool),
        ((assembleRequest c q ro).method = HttpMethod.get
            ↔ ro = true ∧ q.utf8ByteSize ≤ MAX_QUERY_LEN_TO_USE_GET)
          ∧ ((assembleRequest c q ro).method = HttpMethod.get
              → (assembleRequest c q ro).body = ""
                ∧ ("query", q) ∈ (assembleRequest c q ro).queryPairs)
          ∧ ((assembleRequest c q ro).method = HttpMethod.post
              → (assembleRequest c q ro).body = q)
          ∧ (ro = true ∧ (assembleRequest c q ro).method = HttpMethod.post
              → ("readonly", "1") ∈ (assembleRequest c q ro).queryPairs))
      ∧ (∀ c : ClientConfig,
          (assembleRequest c
              (String.mk (List.replicate MAX_QUERY_LEN_TO_USE_GET 'a')) true).method
            = HttpMethod.get
          ∧ (assembleRequest c
              (String.mk (List.replicate (MAX_QUERY_LEN_TO_USE_GET + 1) 'a')) true).method
            = HttpMethod.post
          ∧ ("readonly", "1") ∈ (assembleRequest c
              (String.mk (List.replicate (MAX_QUERY_LEN_TO_USE_GET + 1) 'a')) true).queryPairs) := by
  have hsize : ∀ n : Nat, (String.mk (List.replicate n 'a')).utf8ByteSize = n := by
    intro n
    rw [utf8ByteSize_replicate, show ('a').utf8Size = 1 from by decide, Nat.mul_one]
  constructor
  · intro c q ro
    rw [assembleRequest_spec]
    by_cases h : ro = true ∧ q.utf8ByteSize ≤ MAX_QUERY_LEN_TO_USE_GET
    · rw [if_pos h]
      refine ⟨?_, ?_, ?_, ?_⟩
      · simp [h]
      · intro _
        exact ⟨rfl, by simp⟩
      · intro hpost
        simp at hpost
      · intro hh
        have := hh.2
        simp at this
    · rw [if_neg h]
      refine ⟨?_, ?_, ?_, ?_⟩
      · simp [h]
      · intro hget
        simp at hget
      · intro _
        rfl
      · intro hh
        simp [hh.1]
  · intro c
    rw [assembleRequest_spec, assembleRequest_spec]
    have h1 : (String.mk (List.replicate MAX_QUERY_LEN_TO_USE_GET 'a')).utf8ByteSize
        ≤ MAX_QUERY_LEN_TO_USE_GET := by rw [hsize]
    have h2 : ¬ (String.mk (List.replicate (MAX_QUERY_LEN_TO_USE_GET + 1) 'a')).utf8ByteSize
        ≤ MAX_QUERY_LEN_TO_USE_GET := by rw [hsize]; omega
    rw [if_pos ⟨rfl, h1⟩, if_neg (fun hh => h2 hh.2)]
    refine ⟨rfl, rfl, by simp⟩

/-- C1: for every row sequence of length N yielded by the cursor,
`fetch_all` returns exactly those N rows in the cursor's arrival order —
the chunked accumulation (threshold `BUFFER_SIZE = 20000`), the dispatch of
each full chunk and the direct append of the final partial chunk preserve
both count and order, for every N (in particular N ∈ {0, 1, 19999, 20000,
20001, 40000}). -/
theorem fetch_all_returns_all_rows_in_order {T : Type} :
    ∀ rows : List T,
      fetchAllOfEvents (rows.map Except.ok) = Except.ok rows
        ∧ ∀ out : List T, fetchAllOfEvents (rows.map Except.ok) = Except.ok out
            → out.length = rows.length := by
  intro rows
  have h : fetchAllOfEvents (rows.map Except.ok) = Except.ok rows := by
    rw [fetchAllOfEvents, fetchAllGo_ok_eq_drain, drainAll_map_ok]
    simp [Except.map]
  refine ⟨h, ?_⟩
  intro out hout
  rw [h] at hout
  cases hout
  rfl

/-- C5: `fetch_all` with its background chunk handoff is observably
identical to a straightforward single-threaded drain of the cursor into one
collection, on every input stream (rows, errors, and their mix). -/
theorem fetch_all_refines_single_threaded_drain {T : Type} :
    ∀ events : CursorEvents T, fetchAllOfEvents events = drainAll events := by
  intro events
  rw [fetchAllOfEvents, fetchAllGo_ok_eq_drain]
  cases hd : drainAll events with
  | error e => simp [Except.map]
  | ok rows => simp [Except.map]

/-- C4: `fetch_one` over zero rows fails with `RowNotFound`; over a stream
whose first event is a row it returns that row, pulls exactly one event
from the cursor, and its result never depends on anything after the first
event. -/
theorem fetch_one_first_row_or_not_found {T : Type} :
    ∀ (r : T) (rest rest2 : CursorEvents T),
      fetchOneOfEvents ([] : CursorEvents T) = Except.error Err.rowNotFound
        ∧ fetchOneOfEvents (Except.ok r :: rest) = Except.ok r
        ∧ (cursorNext (Except.ok r :: rest)).2 = rest
        ∧ fetchOneOfEvents (Except.ok r :: rest) = fetchOneOfEvents (Except.ok r :: rest2) := by
  intro r rest rest2
  refine ⟨rfl, rfl, rfl, rfl⟩

/-- C10: if the cursor errors after some decoded rows, `fetch_all` returns
that error and no partial result; and if a chunk handoff join fails, the
join's error is returned likewise (shown at the first full chunk of
`BUFFER_SIZE` rows). -/
theorem fetch_all_error_discards_partial_rows {T : Type} :
    (∀ (pre : List T) (e : Err) (rest : CursorEvents T),
        fetchAllOfEvents (pre.map Except.ok ++ Except.error e :: rest) = Except.error e)
      ∧ (∀ (r : T) (e : Err) (rest : CursorEvents T),
          fetchAllGo (fun _ => Except.error e)
              ((List.replicate BUFFER_SIZE r).map Except.ok ++ rest) [] []
            = Except.error e) := by
  constructor
  · intro pre e rest
    rw [fetchAllOfEvents, fetchAllGo_ok_eq_drain, drainAll_error]
    simp [Except.map]
  · intro r e rest
    have main : ∀ (n : Nat) (buffer result : List T), n ≠ 0
        → buffer.length + n = BUFFER_SIZE
        → fetchAllGo (fun _ => Except.error e)
            ((List.replicate n r).map Except.ok ++ rest) buffer result
          = Except.error e := by
      intro n
      induction n with
      | zero => intro buffer result hn; exact absurd rfl hn
      | succ m ih =>
          intro buffer result _ hlen
          rw [List.replicate_succ]
          simp only [List.map_cons, List.cons_append, fetchAllGo]
          cases m with
          | zero =>
              have hfull : BUFFER_SIZE ≤ (buffer ++ [r]).length := by
                simp at hlen ⊢
                omega
              rw [if_pos hfull]
          | succ k =>
              have hnotfull : ¬ BUFFER_SIZE ≤ (buffer ++ [r]).length := by
                simp at hlen ⊢
                omega
              rw [if_neg hnotfull]
              exact ih (buffer ++ [r]) result (Nat.succ_ne_zero k) (by simp at hlen ⊢; omega)
    have hb : BUFFER_SIZE ≠ 0 := by decide
    exact main BUFFER_SIZE [] [] hb (by simp)

/-- C3: when the bound argument count does not match the positional
placeholder count, or a raw-identifier argument contains a character
invalid in a dotted object name, rendering fails with a binding or
identifier error (when the counts do match, specifically an identifier
error), and every entry point returns that error with no request
constructed: `do_execute` and `execute` for templates without the reserved
`?fields` marker, and `fetch`, `fetch_one`, `fetch_optional`, `fetch_all`
for every template whose `?fields` expansion leaves no marker behind —
including templates carrying one `?fields` placeholder. -/
theorem render_failure_precedes_request {T : Type} :
    ∀ (c : ClientConfig) (fields : List String) (parts : List SqlPart)
      (args : List BindArg) (ro : Bool)
      (respond : RequestModel → CursorEvents T),
      (args.length ≠ countPlaceholders parts
          ∨ ∃ s, BindArg.ident s ∈ args ∧ s.data.all validIdentChar = false)
      → ((SqlPart.fields ∉ parts
            → ∃ e : Err,
                finishParts parts args = Except.error e
                ∧ (e = Err.bindingMissing ∨ e = Err.bindingUnused
                    ∨ ∃ s, e = Err.invalidIdentifier s)
                ∧ (args.length = countPlaceholders parts
                    → ∃ s, e = Err.invalidIdentifier s)
                ∧ doExecuteM c parts args ro = Except.error e
                ∧ executeM c parts args = Except.error e)
          ∧ (SqlPart.fields ∉ bindFields fields parts
              → ∃ e : Err,
                  finishParts (bindFields fields parts
                      ++ [SqlPart.chunk " FORMAT RowBinary"]) args = Except.error e
                  ∧ (e = Err.bindingMissing ∨ e = Err.bindingUnused
                      ∨ ∃ s, e = Err.invalidIdentifier s)
                  ∧ (args.length = countPlaceholders parts
                      → ∃ s, e = Err.invalidIdentifier s)
                  ∧ fetchM c fields parts args = Except.error e
                  ∧ fetchOnePipeline c fields parts args respond = Except.error e
                  ∧ fetchOptionalPipeline c fields parts args respond = Except.error e
                  ∧ fetchAllPipeline c fields parts args respond = Except.error e)) := by
  intro c fields parts args ro respond htrig
  have core : ∀ P : List SqlPart, SqlPart.fields ∉ P
      → countPlaceholders P = countPlaceholders parts
      → ∃ e : Err, finishParts P args = Except.error e
          ∧ (e = Err.bindingMissing ∨ e = Err.bindingUnused
              ∨ ∃ s, e = Err.invalidIdentifier s)
          ∧ (args.length = countPlaceholders parts
              → ∃ s, e = Err.invalidIdentifier s) := by
    intro P hPmem hPcount
    cases hfin : finishParts P args with
    | ok out =>
        exfalso
        have hcnt := finishParts_ok_count P args out hfin
        rcases htrig with hmis | ⟨s, hsmem, hsbad⟩
        · exact hmis (hcnt.symm.trans hPcount)
        · rcases finishParts_ok_args P args out hfin (BindArg.ident s) hsmem with ⟨r, hr⟩
          have hbad : renderArg (BindArg.ident s)
              = Except.error (Err.invalidIdentifier s) := by
            simp [renderArg, hsbad]
          rw [hbad] at hr
          exact Except.noConfusion hr
    | error e =>
        refine ⟨e, rfl, finishParts_error_kind P args e hPmem hfin, ?_⟩
        intro hmatch
        exact finishParts_match_error P args e hPmem (hPcount.trans hmatch.symm) hfin
  constructor
  · intro hp
    rcases core parts hp rfl with ⟨e, hfin, hkind, hident⟩
    refine ⟨e, hfin, hkind, hident, ?_, ?_⟩
    · rw [doExecuteM, hfin]; rfl
    · rw [executeM, doExecuteM, hfin]; rfl
  · intro hf
    have hmem2 : SqlPart.fields
        ∉ bindFields fields parts ++ [SqlPart.chunk " FORMAT RowBinary"] := by
      simp [List.mem_append, hf]
    have hcount2 : countPlaceholders (bindFields fields parts
        ++ [SqlPart.chunk " FORMAT RowBinary"]) = countPlaceholders parts := by
      rw [countPlaceholders_append_chunk, countPlaceholders_bindFields]
    rcases core _ hmem2 hcount2 with ⟨e, hfin, hkind, hident⟩
    refine ⟨e, hfin, hkind, hident, ?_, ?_, ?_, ?_⟩
    · rw [fetchM, doExecuteM, hfin]; rfl
    · rw [fetchOnePipeline, fetchM, doExecuteM, hfin]; rfl
    · rw [fetchOptionalPipeline, fetchM, doExecuteM, hfin]; rfl
    · rw [fetchAllPipeline, fetchM, doExecuteM, hfin]; rfl

/-- Witness for C3 at a concrete input: the fetch template
`"SELECT ?fields FROM t WHERE x = ?"` with one bound argument — the count
matches the one positional placeholder and the argument is the raw
identifier `"bad name"`, whose space is invalid in a dotted object name. -/
theorem render_failure_precedes_request_witness :
    (([BindArg.ident "bad name"] : List BindArg).length
        ≠ countPlaceholders [SqlPart.chunk "SELECT ", SqlPart.fields,
            SqlPart.chunk " FROM t WHERE x = ", SqlPart.arg]
      ∨ ∃ s, BindArg.ident s ∈ ([BindArg.ident "bad name"] : List BindArg)
          ∧ s.data.all validIdentChar = false)
    ∧ ((SqlPart.fields ∉ [SqlPart.chunk "SELECT ", SqlPart.fields,
            SqlPart.chunk " FROM t WHERE x = ", SqlPart.arg]
          → ∃ e : Err,
              finishParts [SqlPart.chunk "SELECT ", SqlPart.fields,
                  SqlPart.chunk " FROM t WHERE x = ", SqlPart.arg]
                [BindArg.ident "bad name"] = Except.error e
              ∧ (e = Err.bindingMissing ∨ e = Err.bindingUnused
                  ∨ ∃ s, e = Err.invalidIdentifier s)
              ∧ (([BindArg.ident "bad name"] : List BindArg).length
                  = countPlaceholders [SqlPart.chunk "SELECT ", SqlPart.fields,
                      SqlPart.chunk " FROM t WHERE x = ", SqlPart.arg]
                  → ∃ s, e = Err.invalidIdentifier s)
              ∧ doExecuteM ⟨[], none, false, [], none, none⟩
                  [SqlPart.chunk "SELECT ", SqlPart.fields,
                    SqlPart.chunk " FROM t WHERE x = ", SqlPart.arg]
                  [BindArg.ident "bad name"] false = Except.error e
              ∧ executeM ⟨[], none, false, [], none, none⟩
                  [SqlPart.chunk "SELECT ", SqlPart.fields,
                    SqlPart.chunk " FROM t WHERE x = ", SqlPart.arg]
                  [BindArg.ident "bad name"] = Except.error e)
        ∧ (SqlPart.fields ∉ bindFields ["no"] [SqlPart.chunk "SELECT ", SqlPart.fields,
              SqlPart.chunk " FROM t WHERE x = ", SqlPart.arg]
            → ∃ e : Err,
                finishParts (bindFields ["no"] [SqlPart.chunk "SELECT ", SqlPart.fields,
                      SqlPart.chunk " FROM t WHERE x = ", SqlPart.arg]
                    ++ [SqlPart.chunk " FORMAT RowBinary"])
                  [BindArg.ident "bad name"] = Except.error e
                ∧ (e = Err.bindingMissing ∨ e = Err.bindingUnused
                    ∨ ∃ s, e = Err.invalidIdentifier s)
                ∧ (([BindArg.ident "bad name"] : List BindArg).length
                    = countPlaceholders [SqlPart.chunk "SELECT ", SqlPart.fields,
                        SqlPart.chunk " FROM t WHERE x = ", SqlPart.arg]
                    → ∃ s, e = Err.invalidIdentifier s)
                ∧ fetchM ⟨[], none, false, [], none, none⟩ ["no"]
                    [SqlPart.chunk "SELECT ", SqlPart.fields,
                      SqlPart.chunk " FROM t WHERE x = ", SqlPart.arg]
                    [BindArg.ident "bad name"] = Except.error e
                ∧ fetchOnePipeline ⟨[], none, false, [], none, none⟩ ["no"]
                    [SqlPart.chunk "SELECT ", SqlPart.fields,
                      SqlPart.chunk " FROM t WHERE x = ", SqlPart.arg]
                    [BindArg.ident "bad name"]
                    (fun _ => ([] : CursorEvents Nat)) = Except.error e
                ∧ fetchOptionalPipeline ⟨[], none, false, [], none, none⟩ ["no"]
                    [SqlPart.chunk "SELECT ", SqlPart.fields,
                      SqlPart.chunk " FROM t WHERE x = ", SqlPart.arg]
                    [BindArg.ident "bad name"]
                    (fun _ => ([] : CursorEvents Nat)) = Except.error e
                ∧ fetchAllPipeline ⟨[], none, false, [], none, none⟩ ["no"]
                    [SqlPart.chunk "SELECT ", SqlPart.fields,
                      SqlPart.chunk " FROM t WHERE x = ", SqlPart.arg]
                    [BindArg.ident "bad name"]
                    (fun _ => ([] : CursorEvents Nat)) = Except.error e)) := by
  refine ⟨Or.inr ⟨"bad name", by decide, by decide⟩, ?_⟩
  exact render_failure_precedes_request ⟨[], none, false, [], none, none⟩ ["no"]
    [SqlPart.chunk "SELECT ", SqlPart.fields,
      SqlPart.chunk " FROM t WHERE x = ", SqlPart.arg]
    [BindArg.ident "bad name"] false (fun _ => ([] : CursorEvents Nat))
    (Or.inr ⟨"bad name", by decide, by decide⟩)

/-- C6: `execute()` renders and then always issues a non-read-only request:
a POST whose body is the rendered text, never a GET and never a
`readonly=1` hint (the hint can only appear among the outgoing pairs if the
caller configured it as an extra option). -/
theorem execute_always_posts :
    ∀ (c : ClientConfig) (parts : List SqlPart) (args : List BindArg) (q : String),
      (finishParts parts args = Except.ok q
          → executeM c parts args = Except.ok (assembleRequest c q false))
        ∧ (assembleRequest c q false).method = HttpMethod.post
        ∧ (assembleRequest c q false).body = q
        ∧ (("readonly", "1") ∈ (assembleRequest c q false).queryPairs
            ↔ ("readonly", "1") ∈ c.options) := by
  intro c parts args q
  have hs := assembleRequest_spec c q false
  rw [if_neg (fun hh => by cases hh.1)] at hs
  refine ⟨?_, ?_, ?_, ?_⟩
  · intro h
    rw [executeM, doExecuteM, h]
    rfl
  · rw [hs]
  · rw [hs]
  · rw [hs]
    cases hdb : c.database with
    | none =>
        by_cases hlz : c.compressionIsLz4
        · simp [dbPairs, compressPairs, hlz]
        · simp [dbPairs, compressPairs, hlz]
    | some d =>
        by_cases hlz : c.compressionIsLz4
        · simp [dbPairs, compressPairs, hlz]
        · simp [dbPairs, compressPairs, hlz]

/-- C7: `fetch(T)` expands the reserved `?fields` placeholder into the
declared column list first, then appends the `" FORMAT RowBinary"`
directive, and issues the request read-only-eligible: its request equals
rendering the fields-expanded template, appending the directive to the
rendered text, and assembling with the read-only flag. -/
theorem fetch_expands_fields_then_appends_format :
    ∀ (c : ClientConfig) (fields : List String) (parts pre post : List SqlPart)
      (args : List BindArg),
      (fetchM c fields parts args
          = (finishParts (bindFields fields parts) args).map
              (fun q => assembleRequest c (q ++ " FORMAT RowBinary") true))
        ∧ (SqlPart.fields ∉ pre
            → bindFields fields (pre ++ SqlPart.fields :: post)
              = pre ++ SqlPart.chunk (String.intercalate ", " fields) :: post) := by
  intro c fields parts pre post args
  constructor
  · rw [fetchM, doExecuteM, finishParts_append_chunk]
    cases hr : finishParts (bindFields fields parts) args with
    | error e => rfl
    | ok u => rfl
  · intro h
    exact bindFields_expand fields pre post h

/-- C8: a non-success server reply surfaces as an error carrying the
server's textual reason byte-exact in both `fetch_one` and `fetch_all`; in
particular a forbidden status yields the literal reason "Forbidden". -/
theorem failure_status_reason_byte_exact {T : Type} :
    ∀ status : HttpStatus,
      fetchAllOfReply (ServerReply.failure status : ServerReply T)
          = Except.error (Err.badResponse status.reason)
        ∧ fetchOneOfReply (ServerReply.failure status : ServerReply T)
          = Except.error (Err.badResponse status.reason)
        ∧ FORBIDDEN.reason = "Forbidden"
        ∧ fetchAllOfReply (ServerReply.failure FORBIDDEN : ServerReply T)
          = Except.error (Err.badResponse "Forbidden") := by
  intro status
  exact ⟨rfl, rfl, rfl, rfl⟩

/-- C9: query pairs inherited from the configured base URL are cleared:
the outgoing pairs are exactly those appended by assembly (database,
query/readonly, compress, extra options) and do not depend on the base
URL's pairs in any way. -/
theorem base_url_pairs_cleared :
    ∀ (c c2 : ClientConfig) (q : String) (ro : Bool),
      ((assembleRequest c q ro).queryPairs
          = (assembleRequest { c with baseQueryPairs := [] } q ro).queryPairs)
        ∧ (c.database = c2.database → c.compressionIsLz4 = c2.compressionIsLz4
            → c.options = c2.options
            → (assembleRequest c q ro).queryPairs = (assembleRequest c2 q ro).queryPairs)
        ∧ ((assembleRequest c q ro).queryPairs
            = dbPairs c.database
              ++ (if ro = true ∧ q.utf8ByteSize ≤ MAX_QUERY_LEN_TO_USE_GET
                  then [("query", q)]
                  else if ro = true then [("readonly", "1")] else [])
              ++ compressPairs c.compressionIsLz4 ++ c.options) := by
  intro c c2 q ro
  have key : ∀ c3 : ClientConfig,
      (assembleRequest c3 q ro).queryPairs
        = dbPairs c3.database
          ++ (if ro = true ∧ q.utf8ByteSize ≤ MAX_QUERY_LEN_TO_USE_GET
              then [("query", q)]
              else if ro = true then [("readonly", "1")] else [])
          ++ compressPairs c3.compressionIsLz4 ++ c3.options := by
    intro c3
    rw [assembleRequest_spec]
    by_cases h : ro = true ∧ q.utf8ByteSize ≤ MAX_QUERY_LEN_TO_USE_GET
    · rw [if_pos h, if_pos h]
    · rw [if_neg h, if_neg h]
  refine ⟨?_, ?_, key c⟩
  · rw [key c, key { c with baseQueryPairs := [] }]
  · intro h1 h2 h3
    rw [key c, key c2, h1, h2, h3]

end ClickHouse
